import Mathlib

/-!
Verification of the Black-Scholes option pricing engine
(`black_scholes_model.py`): a shallow embedding of the `BlackScholes`
class over the real numbers, together with proofs of the behavioural
properties stated in the design specification (pricing formulas, the
d1/d2 derivation, input validation, Greeks, put-call parity, Greek
symmetry, PnL formulas, PnL error handling and PnL monotonicity).

The Python floats are modelled by `ℝ`; `numpy.exp/log/sqrt` by
`Real.exp/log/sqrt`; `scipy.stats.norm.cdf` by the integral of the
standard normal density; raised `ValueError`s by `Except String`.
-/

open MeasureTheory Real Set

namespace BlackScholesModel

/-- Standard normal probability density function,
`exp(-x^2/2) / sqrt(2*pi)` -- the expression the Python code writes
inline for `d1_pdf` (and `scipy.stats.norm.pdf`). -/
noncomputable def normPdf (x : ℝ) : ℝ :=
  Real.exp (-x ^ 2 / 2) / Real.sqrt (2 * Real.pi)

/-- Standard normal cumulative distribution function (`scipy.stats.norm.cdf`):
the integral of the density over `(-∞, x]`. -/
noncomputable def normCdf (x : ℝ) : ℝ :=
  ∫ t in Iic x, normPdf t

theorem normPdf_even (x : ℝ) : normPdf (-x) = normPdf x := by
  simp [normPdf]

theorem integrable_normPdf : Integrable normPdf := by
  have h : normPdf = fun x : ℝ => Real.exp (-(2⁻¹ : ℝ) * x ^ 2) / Real.sqrt (2 * Real.pi) := by
    funext x
    simp only [normPdf]
    ring_nf
  rw [h]
  exact (integrable_exp_neg_mul_sq (by norm_num : (0:ℝ) < 2⁻¹)).div_const _

theorem integral_normPdf : (∫ x, normPdf x) = 1 := by
  have h : normPdf = fun x : ℝ => Real.exp (-(2⁻¹ : ℝ) * x ^ 2) / Real.sqrt (2 * Real.pi) := by
    funext x
    simp only [normPdf]
    ring_nf
  rw [h, integral_div, integral_gaussian]
  rw [show Real.pi / 2⁻¹ = 2 * Real.pi by ring]
  exact div_self (Real.sqrt_ne_zero'.mpr (by positivity))

/-- The reflection identity for the standard normal CDF:
`Φ(x) + Φ(-x) = 1`. -/
theorem normCdf_add_normCdf_neg (x : ℝ) : normCdf x + normCdf (-x) = 1 := by
  have hrefl : normCdf (-x) = ∫ t in Ioi x, normPdf t := by
    have : (∫ t in Iic (-x), normPdf t) = ∫ t in Iic (-x), normPdf (-t) := by
      refine setIntegral_congr_fun measurableSet_Iic ?_
      intro t _
      exact (normPdf_even t).symm
    rw [normCdf, this, integral_comp_neg_Iic, neg_neg]
  rw [normCdf, hrefl,
    intervalIntegral.integral_Iic_add_Ioi integrable_normPdf.integrableOn
      integrable_normPdf.integrableOn,
    integral_normPdf]

/-- Container for option Greeks (Python dataclass `OptionGreeks`). -/
structure OptionGreeks where
  delta : ℝ
  gamma : ℝ
  theta : ℝ
  vega : ℝ
  rho : ℝ

/-- The five input parameters together with the derived state `_d1`, `_d2`
stored by `BlackScholes.__init__`. -/
structure BlackScholes where
  time_to_maturity : ℝ
  strike_price : ℝ
  current_price : ℝ
  volatility : ℝ
  interest_rate : ℝ
  d1 : ℝ
  d2 : ℝ

open Classical in
/-- `BlackScholes._validate_inputs`: the five checks in source order, each
raising a distinct `ValueError` message. -/
noncomputable def validate_inputs (time_to_maturity strike_price current_price
    volatility interest_rate : ℝ) : Except String Unit :=
  if time_to_maturity ≤ 0 then .error "Time to maturity must be positive"
  else if strike_price ≤ 0 then .error "Strike price must be positive"
  else if current_price ≤ 0 then .error "Current price must be positive"
  else if volatility ≤ 0 then .error "Volatility must be positive"
  else if interest_rate < 0 then .error "Interest rate cannot be negative"
  else .ok ()

/-- `BlackScholes._calculate_d1_d2`, as a function of the five stored
parameters it reads from `self`. -/
noncomputable def calculate_d1_d2 (time_to_maturity strike_price current_price
    volatility interest_rate : ℝ) : ℝ × ℝ :=
  let d1 := (Real.log (current_price / strike_price)
      + (interest_rate + 0.5 * volatility ^ 2) * time_to_maturity)
    / (volatility * Real.sqrt time_to_maturity)
  let d2 := d1 - volatility * Real.sqrt time_to_maturity
  (d1, d2)

/-- `BlackScholes.__init__`: validate, store the five parameters, then
compute and store `_d1`, `_d2` once. A raised `ValueError` is modelled as
`Except.error`. -/
noncomputable def BlackScholes.init (time_to_maturity strike_price current_price
    volatility interest_rate : ℝ) : Except String BlackScholes :=
  match validate_inputs time_to_maturity strike_price current_price
      volatility interest_rate with
  | .error msg => .error msg
  | .ok _ =>
    let d := calculate_d1_d2 time_to_maturity strike_price current_price
      volatility interest_rate
    .ok ⟨time_to_maturity, strike_price, current_price, volatility,
      interest_rate, d.1, d.2⟩

/-- `BlackScholes.calculate_prices`: the call and put prices, read off the
stored state. -/
noncomputable def BlackScholes.calculate_prices (e : BlackScholes) : ℝ × ℝ :=
  let discount_factor := Real.exp (-e.interest_rate * e.time_to_maturity)
  let call_price := e.current_price * normCdf e.d1
    - e.strike_price * discount_factor * normCdf e.d2
  let put_price := e.strike_price * discount_factor * normCdf (-e.d2)
    - e.current_price * normCdf (-e.d1)
  (call_price, put_price)

/-- `BlackScholes.calculate_greeks`: Greeks for the call and put options,
read off the stored state. -/
noncomputable def BlackScholes.calculate_greeks (e : BlackScholes) :
    OptionGreeks × OptionGreeks :=
  let discount_factor := Real.exp (-e.interest_rate * e.time_to_maturity)
  let sqrt_t := Real.sqrt e.time_to_maturity
  let d1_pdf := Real.exp (-e.d1 ^ 2 / 2) / Real.sqrt (2 * Real.pi)
  let call_delta := normCdf e.d1
  let gamma := d1_pdf / (e.current_price * e.volatility * sqrt_t)
  let call_theta := -(e.current_price * d1_pdf * e.volatility / (2 * sqrt_t))
    - e.interest_rate * e.strike_price * discount_factor * normCdf e.d2
  let vega := e.current_price * sqrt_t * d1_pdf
  let call_rho := e.strike_price * e.time_to_maturity * discount_factor * normCdf e.d2
  let put_delta := call_delta - 1
  let put_theta := -(e.current_price * d1_pdf * e.volatility / (2 * sqrt_t))
    + e.interest_rate * e.strike_price * discount_factor * normCdf (-e.d2)
  let put_rho := -e.strike_price * e.time_to_maturity * discount_factor * normCdf (-e.d2)
  (⟨call_delta, gamma, call_theta, vega, call_rho⟩,
   ⟨put_delta, gamma, put_theta, vega, put_rho⟩)

open Classical in
/-- `BlackScholes.calculate_pnl`: expiration-payoff PnL over a range of
spot prices. The numpy array `spot_range` is modelled as a list; the
emptiness check `not spot_range.size` as `spot_range = []`. -/
noncomputable def BlackScholes.calculate_pnl (e : BlackScholes)
    (spot_range : List ℝ) (purchase_price : ℝ) :
    Except String (List ℝ × List ℝ) :=
  if purchase_price < 0 then .error "Purchase price cannot be negative"
  else if spot_range = [] then .error "Spot range cannot be empty"
  else
    let call_pnl := spot_range.map fun s => max 0 (s - e.strike_price) - purchase_price
    let put_pnl := spot_range.map fun s => max 0 (e.strike_price - s) - purchase_price
    .ok (call_pnl, put_pnl)

theorem validate_inputs_ok_iff (t k s v r : ℝ) :
    validate_inputs t k s v r = .ok () ↔
      0 < t ∧ 0 < k ∧ 0 < s ∧ 0 < v ∧ 0 ≤ r := by
  unfold validate_inputs
  split_ifs with h1 h2 h3 h4 h5 <;>
    simp_all [not_le, not_lt, le_of_lt]

theorem init_eq_ok (t k s v r : ℝ) (h1 : 0 < t) (h2 : 0 < k) (h3 : 0 < s)
    (h4 : 0 < v) (h5 : 0 ≤ r) :
    BlackScholes.init t k s v r =
      .ok ⟨t, k, s, v, r, (calculate_d1_d2 t k s v r).1,
        (calculate_d1_d2 t k s v r).2⟩ := by
  unfold BlackScholes.init
  rw [(validate_inputs_ok_iff t k s v r).mpr ⟨h1, h2, h3, h4, h5⟩]

theorem init_inv {t k s v r : ℝ} {e : BlackScholes}
    (h : BlackScholes.init t k s v r = .ok e) :
    (0 < t ∧ 0 < k ∧ 0 < s ∧ 0 < v ∧ 0 ≤ r) ∧
      e = ⟨t, k, s, v, r, (calculate_d1_d2 t k s v r).1,
        (calculate_d1_d2 t k s v r).2⟩ := by
  unfold BlackScholes.init at h
  cases hv : validate_inputs t k s v r with
  | error m => rw [hv] at h; exact absurd h (by simp)
  | ok u =>
    cases u
    rw [hv] at h
    exact ⟨(validate_inputs_ok_iff t k s v r).mp hv, (Except.ok.inj h).symm⟩

/-- A concrete validly constructed engine, used to instantiate the
universally quantified theorems below. -/
noncomputable def testEngine : BlackScholes :=
  ⟨1, 100, 100, 1/2, 1/20, (calculate_d1_d2 1 100 100 (1/2) (1/20)).1,
    (calculate_d1_d2 1 100 100 (1/2) (1/20)).2⟩

theorem init_testEngine :
    BlackScholes.init 1 100 100 (1/2) (1/20) = .ok testEngine :=
  init_eq_ok 1 100 100 (1/2) (1/20) (by norm_num) (by norm_num) (by norm_num)
    (by norm_num) (by norm_num)

/-- C1: for every validly constructed engine, `calculate_prices` takes no
arguments beyond the engine, always succeeds, and returns the pair
`(callPrice, putPrice)` with
`callPrice = S * Φ(d1) - K * exp(-r*T) * Φ(d2)` and
`putPrice = K * exp(-r*T) * Φ(-d2) - S * Φ(-d1)`, where `d1`, `d2` are the
engine's stored derived terms. -/
theorem calculate_prices_formula (t k s v r : ℝ) (e : BlackScholes)
    (h : BlackScholes.init t k s v r = .ok e) :
    e.calculate_prices =
      (e.current_price * normCdf e.d1
          - e.strike_price * Real.exp (-e.interest_rate * e.time_to_maturity)
            * normCdf e.d2,
        e.strike_price * Real.exp (-e.interest_rate * e.time_to_maturity)
            * normCdf (-e.d2)
          - e.current_price * normCdf (-e.d1)) := rfl

theorem calculate_prices_formula_witness :
    testEngine.calculate_prices =
      (testEngine.current_price * normCdf testEngine.d1
          - testEngine.strike_price
            * Real.exp (-testEngine.interest_rate * testEngine.time_to_maturity)
            * normCdf testEngine.d2,
        testEngine.strike_price
            * Real.exp (-testEngine.interest_rate * testEngine.time_to_maturity)
            * normCdf (-testEngine.d2)
          - testEngine.current_price * normCdf (-testEngine.d1)) :=
  calculate_prices_formula 1 100 100 (1/2) (1/20) testEngine init_testEngine

/-- C2: on successful construction from strictly positive
`timeToMaturity, strikePrice, currentPrice, volatility` and non-negative
`interestRate`, the engine stores at construction
`d1 = (ln(S/K) + (r + 0.5*v^2)*T) / (v*sqrt(T))` and
`d2 = d1 - v*sqrt(T)`; queries then reuse these stored fields. -/
theorem init_d1_d2 (t k s v r : ℝ) (e : BlackScholes)
    (h1 : 0 < t) (h2 : 0 < k) (h3 : 0 < s) (h4 : 0 < v) (h5 : 0 ≤ r)
    (h : BlackScholes.init t k s v r = .ok e) :
    e.d1 = (Real.log (s / k) + (r + 0.5 * v ^ 2) * t) / (v * Real.sqrt t) ∧
      e.d2 = e.d1 - v * Real.sqrt t := by
  obtain ⟨-, rfl⟩ := init_inv h
  exact ⟨rfl, rfl⟩

theorem init_d1_d2_witness :
    testEngine.d1 = (Real.log ((100 : ℝ) / 100) + (1/20 + 0.5 * (1/2) ^ 2) * 1)
        / ((1/2) * Real.sqrt 1) ∧
      testEngine.d2 = testEngine.d1 - (1/2) * Real.sqrt 1 :=
  init_d1_d2 1 100 100 (1/2) (1/20) testEngine (by norm_num) (by norm_num)
    (by norm_num) (by norm_num) (by norm_num) init_testEngine

/-- C3: put-call parity: for every validly constructed engine the pair
returned by `calculate_prices` satisfies
`callPrice - putPrice = currentPrice - strikePrice * exp(-r*T)` exactly in
exact-real arithmetic. -/
theorem put_call_parity (t k s v r : ℝ) (e : BlackScholes)
    (h : BlackScholes.init t k s v r = .ok e) :
    e.calculate_prices.1 - e.calculate_prices.2 =
      e.current_price
        - e.strike_price * Real.exp (-e.interest_rate * e.time_to_maturity) := by
  have hd1 := normCdf_add_normCdf_neg e.d1
  have hd2 := normCdf_add_normCdf_neg e.d2
  simp only [BlackScholes.calculate_prices]
  linear_combination e.current_price * hd1
    - e.strike_price * Real.exp (-e.interest_rate * e.time_to_maturity) * hd2

theorem put_call_parity_witness :
    testEngine.calculate_prices.1 - testEngine.calculate_prices.2 =
      testEngine.current_price - testEngine.strike_price
        * Real.exp (-testEngine.interest_rate * testEngine.time_to_maturity) :=
  put_call_parity 1 100 100 (1/2) (1/20) testEngine init_testEngine

theorem init_error_of_validate {t k s v r : ℝ} {m : String}
    (h : validate_inputs t k s v r = .error m) :
    BlackScholes.init t k s v r = .error m := by
  unfold BlackScholes.init
  rw [h]

/-- C4: construction fails iff one of the five validation rules is
violated; the rules are checked in source order (T ≤ 0, K ≤ 0, S ≤ 0,
v ≤ 0, r < 0), each failure carries its own distinct message, and every
input with the four positivity constraints and r ≥ 0 is accepted. -/
theorem init_validation (t k s v r : ℝ) :
    ((∃ e, BlackScholes.init t k s v r = .ok e) ↔
        (0 < t ∧ 0 < k ∧ 0 < s ∧ 0 < v ∧ 0 ≤ r)) ∧
      (t ≤ 0 →
        BlackScholes.init t k s v r = .error "Time to maturity must be positive") ∧
      (0 < t → k ≤ 0 →
        BlackScholes.init t k s v r = .error "Strike price must be positive") ∧
      (0 < t → 0 < k → s ≤ 0 →
        BlackScholes.init t k s v r = .error "Current price must be positive") ∧
      (0 < t → 0 < k → 0 < s → v ≤ 0 →
        BlackScholes.init t k s v r = .error "Volatility must be positive") ∧
      (0 < t → 0 < k → 0 < s → 0 < v → r < 0 →
        BlackScholes.init t k s v r = .error "Interest rate cannot be negative") := by
  refine ⟨⟨fun ⟨e, he⟩ => (init_inv he).1,
    fun ⟨h1, h2, h3, h4, h5⟩ => ⟨_, init_eq_ok t k s v r h1 h2 h3 h4 h5⟩⟩,
    ?_, ?_, ?_, ?_, ?_⟩
  · intro ht
    exact init_error_of_validate (by unfold validate_inputs; rw [if_pos ht])
  · intro ht hk
    exact init_error_of_validate
      (by unfold validate_inputs; rw [if_neg (not_le.mpr ht), if_pos hk])
  · intro ht hk hs
    exact init_error_of_validate
      (by unfold validate_inputs
          rw [if_neg (not_le.mpr ht), if_neg (not_le.mpr hk), if_pos hs])
  · intro ht hk hs hv
    exact init_error_of_validate
      (by unfold validate_inputs
          rw [if_neg (not_le.mpr ht), if_neg (not_le.mpr hk),
            if_neg (not_le.mpr hs), if_pos hv])
  · intro ht hk hs hv hr
    exact init_error_of_validate
      (by unfold validate_inputs
          rw [if_neg (not_le.mpr ht), if_neg (not_le.mpr hk),
            if_neg (not_le.mpr hs), if_neg (not_le.mpr hv), if_pos hr])

theorem init_validation_witness :
    BlackScholes.init 0 100 100 (1/2) (1/20) =
      .error "Time to maturity must be positive" :=
  (init_validation 0 100 100 (1/2) (1/20)).2.1 (by norm_num)

/-- C5: for every validly constructed engine, `calculate_greeks` is a pure
function of the engine state returning the call and put Greeks given by
the stated formulas, with `φ` the standard normal density. -/
theorem calculate_greeks_formula (t k s v r : ℝ) (e : BlackScholes)
    (h : BlackScholes.init t k s v r = .ok e) :
    e.calculate_greeks =
      (⟨normCdf e.d1,
        normPdf e.d1
          / (e.current_price * e.volatility * Real.sqrt e.time_to_maturity),
        -(e.current_price * normPdf e.d1 * e.volatility)
            / (2 * Real.sqrt e.time_to_maturity)
          - e.interest_rate * e.strike_price
            * Real.exp (-e.interest_rate * e.time_to_maturity) * normCdf e.d2,
        e.current_price * Real.sqrt e.time_to_maturity * normPdf e.d1,
        e.strike_price * e.time_to_maturity
          * Real.exp (-e.interest_rate * e.time_to_maturity) * normCdf e.d2⟩,
       ⟨normCdf e.d1 - 1,
        normPdf e.d1
          / (e.current_price * e.volatility * Real.sqrt e.time_to_maturity),
        -(e.current_price * normPdf e.d1 * e.volatility)
            / (2 * Real.sqrt e.time_to_maturity)
          + e.interest_rate * e.strike_price
            * Real.exp (-e.interest_rate * e.time_to_maturity) * normCdf (-e.d2),
        e.current_price * Real.sqrt e.time_to_maturity * normPdf e.d1,
        -e.strike_price * e.time_to_maturity
          * Real.exp (-e.interest_rate * e.time_to_maturity) * normCdf (-e.d2)⟩) := by
  simp only [BlackScholes.calculate_greeks, normPdf, Prod.mk.injEq,
    OptionGreeks.mk.injEq, true_and, and_true]
  constructor <;> ring

theorem calculate_greeks_formula_witness :
    testEngine.calculate_greeks =
      (⟨normCdf testEngine.d1,
        normPdf testEngine.d1
          / (testEngine.current_price * testEngine.volatility
            * Real.sqrt testEngine.time_to_maturity),
        -(testEngine.current_price * normPdf testEngine.d1 * testEngine.volatility)
            / (2 * Real.sqrt testEngine.time_to_maturity)
          - testEngine.interest_rate * testEngine.strike_price
            * Real.exp (-testEngine.interest_rate * testEngine.time_to_maturity)
            * normCdf testEngine.d2,
        testEngine.current_price * Real.sqrt testEngine.time_to_maturity
          * normPdf testEngine.d1,
        testEngine.strike_price * testEngine.time_to_maturity
          * Real.exp (-testEngine.interest_rate * testEngine.time_to_maturity)
          * normCdf testEngine.d2⟩,
       ⟨normCdf testEngine.d1 - 1,
        normPdf testEngine.d1
          / (testEngine.current_price * testEngine.volatility
            * Real.sqrt testEngine.time_to_maturity),
        -(testEngine.current_price * normPdf testEngine.d1 * testEngine.volatility)
            / (2 * Real.sqrt testEngine.time_to_maturity)
          + testEngine.interest_rate * testEngine.strike_price
            * Real.exp (-testEngine.interest_rate * testEngine.time_to_maturity)
            * normCdf (-testEngine.d2),
        testEngine.current_price * Real.sqrt testEngine.time_to_maturity
          * normPdf testEngine.d1,
        -testEngine.strike_price * testEngine.time_to_maturity
          * Real.exp (-testEngine.interest_rate * testEngine.time_to_maturity)
          * normCdf (-testEngine.d2)⟩) :=
  calculate_greeks_formula 1 100 100 (1/2) (1/20) testEngine init_testEngine

/-- C6: Greek symmetry: call and put Greeks from one `calculate_greeks`
call have identical gamma, identical vega, and
`callDelta - putDelta = 1` exactly. -/
theorem greek_symmetry (t k s v r : ℝ) (e : BlackScholes)
    (h : BlackScholes.init t k s v r = .ok e) :
    e.calculate_greeks.1.gamma = e.calculate_greeks.2.gamma ∧
      e.calculate_greeks.1.vega = e.calculate_greeks.2.vega ∧
      e.calculate_greeks.1.delta - e.calculate_greeks.2.delta = 1 := by
  refine ⟨rfl, rfl, ?_⟩
  simp only [BlackScholes.calculate_greeks]
  ring

theorem greek_symmetry_witness :
    testEngine.calculate_greeks.1.gamma = testEngine.calculate_greeks.2.gamma ∧
      testEngine.calculate_greeks.1.vega = testEngine.calculate_greeks.2.vega ∧
      testEngine.calculate_greeks.1.delta - testEngine.calculate_greeks.2.delta
        = 1 :=
  greek_symmetry 1 100 100 (1/2) (1/20) testEngine init_testEngine

/-- C7: for a validly constructed engine, a non-empty `spotRange` and
`purchasePrice ≥ 0`, `calculate_pnl` returns two lists of the same length
and order as `spotRange`, with `callPnl[i] = max 0 (spot - K) - p` and
`putPnl[i] = max 0 (K - spot) - p`, and the result depends on the engine
only through its `strike_price`. -/
theorem calculate_pnl_formula (t k s v r : ℝ) (e : BlackScholes)
    (sr : List ℝ) (p : ℝ)
    (h : BlackScholes.init t k s v r = .ok e) (hsr : sr ≠ []) (hp : 0 ≤ p) :
    e.calculate_pnl sr p =
        .ok (sr.map fun s => max 0 (s - e.strike_price) - p,
          sr.map fun s => max 0 (e.strike_price - s) - p) ∧
      (sr.map fun s => max 0 (s - e.strike_price) - p).length = sr.length ∧
      (sr.map fun s => max 0 (e.strike_price - s) - p).length = sr.length ∧
      (∀ (i : ℕ) (s0 : ℝ), sr[i]? = some s0 →
        (sr.map fun s => max 0 (s - e.strike_price) - p)[i]?
            = some (max 0 (s0 - e.strike_price) - p) ∧
          (sr.map fun s => max 0 (e.strike_price - s) - p)[i]?
            = some (max 0 (e.strike_price - s0) - p)) ∧
      (∀ e' : BlackScholes, e'.strike_price = e.strike_price →
        e'.calculate_pnl sr p = e.calculate_pnl sr p) := by
  refine ⟨?_, by simp, by simp, ?_, ?_⟩
  · unfold BlackScholes.calculate_pnl
    rw [if_neg (not_lt.mpr hp), if_neg hsr]
  · intro i s0 hs0
    constructor <;> simp [List.getElem?_map, hs0]
  · intro e' he'
    unfold BlackScholes.calculate_pnl
    rw [he']

theorem calculate_pnl_formula_witness :
    testEngine.calculate_pnl [90, 110] 1 =
      .ok ([90, 110].map fun s => max 0 (s - testEngine.strike_price) - 1,
        [90, 110].map fun s => max 0 (testEngine.strike_price - s) - 1) :=
  (calculate_pnl_formula 1 100 100 (1/2) (1/20) testEngine [90, 110] 1
    init_testEngine (by simp) (by norm_num)).1

/-- C8: `calculate_pnl` fails iff `purchasePrice < 0` or `spotRange` is
empty, each with its own distinct error message, and succeeds on every
`purchasePrice ≥ 0` with non-empty `spotRange`. -/
theorem calculate_pnl_error_iff (e : BlackScholes) (sr : List ℝ) (p : ℝ) :
    ((∃ m, e.calculate_pnl sr p = .error m) ↔ (p < 0 ∨ sr = [])) ∧
      (p < 0 →
        e.calculate_pnl sr p = .error "Purchase price cannot be negative") ∧
      (0 ≤ p → sr = [] →
        e.calculate_pnl sr p = .error "Spot range cannot be empty") ∧
      (0 ≤ p → sr ≠ [] →
        e.calculate_pnl sr p =
          .ok (sr.map fun s => max 0 (s - e.strike_price) - p,
            sr.map fun s => max 0 (e.strike_price - s) - p)) := by
  unfold BlackScholes.calculate_pnl
  split_ifs with hp hsr
  · exact ⟨iff_of_true ⟨_, rfl⟩ (Or.inl hp), fun _ => rfl,
      fun h0p _ => absurd hp (not_lt.mpr h0p),
      fun h0p _ => absurd hp (not_lt.mpr h0p)⟩
  · exact ⟨iff_of_true ⟨_, rfl⟩ (Or.inr hsr), fun hp0 => absurd hp0 hp,
      fun _ _ => rfl, fun _ hne => absurd hsr hne⟩
  · refine ⟨iff_of_false (by simp) ?_, fun hp0 => absurd hp0 hp,
      fun _ h0 => absurd h0 hsr, fun _ _ => rfl⟩
    rintro (h0 | h0)
    · exact hp h0
    · exact hsr h0

theorem calculate_pnl_error_iff_witness :
    testEngine.calculate_pnl [] 1 = .error "Spot range cannot be empty" :=
  (calculate_pnl_error_iff testEngine [] 1).2.2.1 (by norm_num) rfl

/-- C9: PnL monotonicity: for a validly constructed engine,
`purchasePrice ≥ 0` and `spotRange` sorted non-decreasingly, the returned
`callPnl` list is non-decreasing and the `putPnl` list is non-increasing. -/
theorem calculate_pnl_monotone (t k s v r : ℝ) (e : BlackScholes)
    (sr : List ℝ) (p : ℝ) (call_pnl put_pnl : List ℝ)
    (h : BlackScholes.init t k s v r = .ok e) (hp : 0 ≤ p)
    (hsorted : sr.Sorted (· ≤ ·))
    (hout : e.calculate_pnl sr p = .ok (call_pnl, put_pnl)) :
    call_pnl.Sorted (· ≤ ·) ∧ put_pnl.Sorted (· ≥ ·) := by
  unfold BlackScholes.calculate_pnl at hout
  split_ifs at hout with hp0 hsr
  injection hout with hpair
  injection hpair with hc hq
  subst hc
  subst hq
  constructor
  · refine List.Pairwise.map _ ?_ hsorted
    intro a b hab
    exact sub_le_sub_right (max_le_max le_rfl (sub_le_sub_right hab _)) _
  · refine List.Pairwise.map _ ?_ hsorted
    intro a b hab
    exact sub_le_sub_right (max_le_max le_rfl (sub_le_sub_left hab _)) _

theorem calculate_pnl_monotone_witness :
    ([90, 110].map fun s => max 0 (s - testEngine.strike_price) - 1).Sorted
        (· ≤ ·) ∧
      ([90, 110].map fun s => max 0 (testEngine.strike_price - s) - 1).Sorted
        (· ≥ ·) :=
  calculate_pnl_monotone 1 100 100 (1/2) (1/20) testEngine [90, 110] 1
    ([90, 110].map fun s => max 0 (s - testEngine.strike_price) - 1)
    ([90, 110].map fun s => max 0 (testEngine.strike_price - s) - 1)
    init_testEngine (by norm_num) (by norm_num [List.sorted_cons])
    (by unfold BlackScholes.calculate_pnl
        rw [if_neg (by norm_num), if_neg (by simp)])

/-- C10: `calculate_pnl` checks `purchasePrice` before `spotRange`: with
`purchasePrice < 0` the purchase-price error is raised even when
`spotRange` is empty, and the empty-range error can only occur when
`purchasePrice ≥ 0`. -/
theorem calculate_pnl_purchase_checked_before_range (e : BlackScholes)
    (sr : List ℝ) (p : ℝ) :
    (p < 0 →
        e.calculate_pnl sr p = .error "Purchase price cannot be negative") ∧
      (e.calculate_pnl sr p = .error "Spot range cannot be empty" → 0 ≤ p) := by
  constructor
  · intro hp
    unfold BlackScholes.calculate_pnl
    rw [if_pos hp]
  · intro h
    by_contra hneg
    rw [not_le] at hneg
    unfold BlackScholes.calculate_pnl at h
    rw [if_pos hneg] at h
    exact absurd (Except.error.inj h) (by decide)

theorem calculate_pnl_purchase_checked_before_range_witness :
    testEngine.calculate_pnl [] (-1) =
      .error "Purchase price cannot be negative" :=
  (calculate_pnl_purchase_checked_before_range testEngine [] (-1)).1
    (by norm_num)

end BlackScholesModel
